import Mathlib

/-!
Shallow embedding of the ClojureRS nREPL server core
(src/nrepl_server.rs) together with the string utility
clojure.string/triml (src/clojure_string/triml.rs) and the
type-tag table (src/type_tag.rs).

Machine strings are modelled as Lean `String`; raw wire bytes are
modelled as `List Nat` (each element a byte value).  The process-level
`HashMap` is modelled as an association list with replace-in-place
insertion, which realises exactly the overwrite-on-insert and
lookup behaviour the server relies on.  Rust panics are modelled
explicitly with a dedicated result constructor, so that statements
about "never panics" are statements about the embedding.
-/

/-! ## Association lists: the model of std::collections::HashMap -/

/-- Insert with overwrite, the semantics of HashMap::insert. -/
def assocInsert {α : Type} : List (String × α) → String → α → List (String × α)
  | [], k, v => [(k, v)]
  | (k', v') :: rest, k, v =>
    if k' = k then (k, v) :: rest else (k', v') :: assocInsert rest k v

/-- Lookup, the semantics of HashMap::get. -/
def assocGet {α : Type} : List (String × α) → String → Option α
  | [], _ => none
  | (k', v') :: rest, k => if k' = k then some v' else assocGet rest k

/-! ## UTF-8, the model of str::from_utf8 and of String byte encoding -/

/-- Encode one scalar value as UTF-8 bytes (standard 1 to 4 byte forms). -/
def charBytes (c : Char) : List Nat :=
  let n := c.toNat
  if n < 0x80 then [n]
  else if n < 0x800 then
    [0xC0 + n / 64, 0x80 + n % 64]
  else if n < 0x10000 then
    [0xE0 + n / 4096, 0x80 + (n / 64) % 64, 0x80 + n % 64]
  else
    [0xF0 + n / 262144, 0x80 + (n / 4096) % 64, 0x80 + (n / 64) % 64, 0x80 + n % 64]

/-- UTF-8 bytes of a whole string, the model of str::as_bytes. -/
def strBytes (s : String) : List Nat :=
  (s.data.map charBytes).flatten

/-- Validating UTF-8 decoder over byte lists.  Follows the exact
acceptance ranges of Rust str::from_utf8: no overlong forms, no
surrogates, nothing above 0x10FFFF. -/
def utf8DecodeAux : List Nat → Option (List Char)
  | [] => some []
  | b :: rest =>
    if b ≤ 0x7F then
      (utf8DecodeAux rest).map (fun cs => Char.ofNat b :: cs)
    else if 0xC2 ≤ b ∧ b ≤ 0xDF then
      match rest with
      | b2 :: rest2 =>
        if 0x80 ≤ b2 ∧ b2 ≤ 0xBF then
          (utf8DecodeAux rest2).map
            (fun cs => Char.ofNat ((b - 0xC0) * 64 + (b2 - 0x80)) :: cs)
        else none
      | [] => none
    else if 0xE0 ≤ b ∧ b ≤ 0xEF then
      match rest with
      | b2 :: b3 :: rest3 =>
        if (b = 0xE0 → 0xA0 ≤ b2) ∧ (b = 0xED → b2 ≤ 0x9F) ∧
            (0x80 ≤ b2 ∧ b2 ≤ 0xBF) ∧ (0x80 ≤ b3 ∧ b3 ≤ 0xBF) then
          (utf8DecodeAux rest3).map
            (fun cs =>
              Char.ofNat ((b - 0xE0) * 4096 + (b2 - 0x80) * 64 + (b3 - 0x80)) :: cs)
        else none
      | _ => none
    else if 0xF0 ≤ b ∧ b ≤ 0xF4 then
      match rest with
      | b2 :: b3 :: b4 :: rest4 =>
        if (b = 0xF0 → 0x90 ≤ b2) ∧ (b = 0xF4 → b2 ≤ 0x8F) ∧
            (0x80 ≤ b2 ∧ b2 ≤ 0xBF) ∧ (0x80 ≤ b3 ∧ b3 ≤ 0xBF) ∧
            (0x80 ≤ b4 ∧ b4 ≤ 0xBF) then
          (utf8DecodeAux rest4).map
            (fun cs =>
              Char.ofNat ((b - 0xF0) * 262144 + (b2 - 0x80) * 4096 +
                (b3 - 0x80) * 64 + (b4 - 0x80)) :: cs)
        else none
      | _ => none
    else none

/-- The model of str::from_utf8: some on valid UTF-8, none otherwise. -/
def utf8Decode (bs : List Nat) : Option String :=
  (utf8DecodeAux bs).map (fun l => String.mk l)

/-! ## Decimal digits, the model of the length prefixes of bencode -/

/-- Fuel-driven little-endian decimal digits, kept structurally
recursive so that the kernel can evaluate it. -/
def decDigitsGo : Nat → Nat → List Nat
  | 0, _ => []
  | fuel + 1, n => if n = 0 then [] else n % 10 :: decDigitsGo fuel (n / 10)

/-- Little-endian decimal digits of a natural number, [] for 0. -/
def decDigits (n : Nat) : List Nat := decDigitsGo n n

/-- ASCII decimal representation of a natural number, the model of
the usize Display impl used by bendy for byte-string lengths. -/
def natToDecimal (n : Nat) : List Nat :=
  if n = 0 then [48] else (decDigits n).reverse.map (fun d => d + 48)

/-! ## The identifier generator (random_uuid in src/nrepl_server.rs) -/

/-- Lowercase hexadecimal rendering with no padding, the model of
the Rust format specifier used in random_uuid. -/
def hexStr (n : Nat) : String := String.mk (Nat.toDigits 16 n)

/-- The six values produced by the six gen_range(0, 16^k) calls of
random_uuid, in call order: k = 8, 4, 3, 1, 3, 12. -/
structure UuidDraws where
  d1 : Nat
  d2 : Nat
  d3 : Nat
  d4 : Nat
  d5 : Nat
  d6 : Nat
deriving DecidableEq

/-- The bounds gen_range(0, base.pow(k)) guarantees for each draw. -/
def UuidDraws.inRange (u : UuidDraws) : Prop :=
  u.d1 < 16 ^ 8 ∧ u.d2 < 16 ^ 4 ∧ u.d3 < 16 ^ 3 ∧
  u.d4 < 16 ^ 1 ∧ u.d5 < 16 ^ 3 ∧ u.d6 < 16 ^ 12

/-- Embedding of random_uuid as a pure function of the drawn values.
part_3 adds 4 * 16^3, and part_4 is rhex + hex_num(3) exactly as in
the source (a plain addition, not a positional shift). -/
def randomUuid (u : UuidDraws) : String :=
  let part1 := u.d1
  let part2 := u.d2
  let part3 := 4 * 16 ^ 3 + u.d3
  let rhex := 8 ||| (3 &&& u.d4)
  let part4 := rhex + u.d5
  let part5 := u.d6
  hexStr part1 ++ "-" ++ hexStr part2 ++ "-" ++ hexStr part3 ++ "-" ++
    hexStr part4 ++ "-" ++ hexStr part5

/-- The all-zero outcome of the random source, a valid value of every
gen_range call performed by random_uuid. -/
def uuidDrawsZero : UuidDraws := ⟨0, 0, 0, 0, 0, 0⟩

/-! ## Bencode, the model of the bendy decoder and encoder

The server only ever reads one top-level object from a byte buffer
(via Decoder::next_object) and walks dictionary pairs.  The bendy
crate validates lazily; this embedding parses the requested object
eagerly.  On every input exercised by the specification the two
agree: a malformed buffer yields a decode error in both, and a
well-formed buffer yields the same object. -/

/-- Decode errors of the bencode layer (bendy decoding::Error). -/
inductive DecErr where
  | eofErr
  | badToken
  | fuelOut
deriving DecidableEq

/-- A decoded bencode object (bendy decoding::Object), with
dictionaries kept as pair lists in wire order. -/
inductive Bobject where
  | int (n : Int)
  | bytes (bs : List Nat)
  | list (xs : List Bobject)
  | dict (ps : List (List Nat × Bobject))

/-- Whether an object is a dictionary. -/
def Bobject.isDict : Bobject → Bool
  | .dict _ => true
  | _ => false

/-- Whether an object is a byte string. -/
def Bobject.isBytes : Bobject → Bool
  | .bytes _ => true
  | _ => false

/-- Consume a run of ASCII digits, most significant first, and
return the accumulated value together with the unread remainder. -/
def parseDecimal : List Nat → Nat → Nat × List Nat
  | [], acc => (acc, [])
  | c :: rest, acc =>
    if 48 ≤ c ∧ c ≤ 57 then parseDecimal rest (acc * 10 + (c - 48))
    else (acc, c :: rest)

/-- Parse one byte-string token, length prefix and colon included. -/
def parseBytesToken (bs : List Nat) : Except DecErr (List Nat × List Nat) :=
  match bs with
  | [] => .error .eofErr
  | c :: _ =>
    if 48 ≤ c ∧ c ≤ 57 then
      match parseDecimal bs 0 with
      | (n, 58 :: rest) =>
        if n ≤ rest.length then .ok (rest.take n, rest.drop n)
        else .error .eofErr
      | _ => .error .badToken
    else .error .badToken

/-- Parse one integer token, the leading marker already consumed. -/
def parseIntTok (bs : List Nat) : Except DecErr (Bobject × List Nat) :=
  match bs with
  | 45 :: rest =>
    match parseDecimal rest 0 with
    | (n, 101 :: r) => .ok (.int (-(n : Int)), r)
    | _ => .error .badToken
  | _ =>
    match parseDecimal bs 0 with
    | (n, 101 :: r) => .ok (.int (n : Int), r)
    | _ => .error .badToken

mutual

/-- Parse one bencode object; fuel decreases on nested objects. -/
def parseObjF : Nat → List Nat → Except DecErr (Bobject × List Nat)
  | 0, _ => .error .fuelOut
  | _ + 1, [] => .error .eofErr
  | f + 1, c :: rest =>
    if c = 105 then parseIntTok rest
    else if c = 108 then
      match parseListF f rest with
      | .ok (xs, r) => .ok (.list xs, r)
      | .error e => .error e
    else if c = 100 then
      match parseDictF f rest with
      | .ok (ps, r) => .ok (.dict ps, r)
      | .error e => .error e
    else if 48 ≤ c ∧ c ≤ 57 then
      match parseBytesToken (c :: rest) with
      | .ok (bs, r) => .ok (.bytes bs, r)
      | .error e => .error e
    else .error .badToken

/-- Parse list items up to the closing marker. -/
def parseListF : Nat → List Nat → Except DecErr (List Bobject × List Nat)
  | 0, _ => .error .fuelOut
  | _ + 1, [] => .error .eofErr
  | f + 1, c :: rest =>
    if c = 101 then .ok ([], rest)
    else
      match parseObjF f (c :: rest) with
      | .ok (x, r) =>
        match parseListF f r with
        | .ok (xs, r') => .ok (x :: xs, r')
        | .error e => .error e
      | .error e => .error e

/-- Parse dictionary pairs up to the closing marker; keys must be
byte strings, as bendy requires. -/
def parseDictF : Nat → List Nat → Except DecErr (List (List Nat × Bobject) × List Nat)
  | 0, _ => .error .fuelOut
  | _ + 1, [] => .error .eofErr
  | f + 1, c :: rest =>
    if c = 101 then .ok ([], rest)
    else
      match parseBytesToken (c :: rest) with
      | .ok (k, r) =>
        match parseObjF f r with
        | .ok (v, r') =>
          match parseDictF f r' with
          | .ok (ps, r'') => .ok ((k, v) :: ps, r'')
          | .error e => .error e
        | .error e => .error e
      | .error e => .error e

end

/-- Parse the first bencode object of a buffer.  The fuel bound of
one plus the buffer length can never be exhausted, because every
recursion step consumes at least one byte. -/
def parse (bs : List Nat) : Except DecErr (Bobject × List Nat) :=
  parseObjF (bs.length + 1) bs

/-- Encode a byte-string token: decimal length, colon, payload. -/
def encStr (bs : List Nat) : List Nat :=
  natToDecimal bs.length ++ 58 :: bs

/-- Decimal rendering of an integer, sign included. -/
def intToDecimal (n : Int) : List Nat :=
  if n < 0 then 45 :: natToDecimal (-n).toNat else natToDecimal n.toNat

mutual

/-- Serialize an object back to wire bytes (the generic bendy
encoding of decoded values). -/
def serializeBObj : Bobject → List Nat
  | .int n => 105 :: intToDecimal n ++ [101]
  | .bytes bs => encStr bs
  | .list xs => 108 :: serializeBList xs ++ [101]
  | .dict ps => 100 :: serializeBPairs ps ++ [101]

/-- Serialize the items of a list object. -/
def serializeBList : List Bobject → List Nat
  | [] => []
  | x :: xs => serializeBObj x ++ serializeBList xs

/-- Serialize the pairs of a dictionary object. -/
def serializeBPairs : List (List Nat × Bobject) → List Nat
  | [] => []
  | (k, v) :: ps => encStr k ++ serializeBObj v ++ serializeBPairs ps

end

/-- Wire form of a run of dictionary pairs whose values are byte
strings: each key token followed by its value token. -/
def encPairs : List (List Nat × List Nat) → List Nat
  | [] => []
  | (k, v) :: t => encStr k ++ (encStr v ++ encPairs t)

/-- The decoded form of such a run of pairs. -/
def pairsToDict : List (List Nat × List Nat) → List (List Nat × Bobject)
  | [] => []
  | (k, v) :: t => (k, .bytes v) :: pairsToDict t

/-! ## The request/response data model of src/nrepl_server.rs -/

/-- Opaque per-session evaluator state (crate::repl::Repl), out of
scope for the protocol: only its default construction is used. -/
inductive Repl where
  | mk
deriving DecidableEq

/-- The value Repl::default() produces. -/
def Repl.default : Repl := .mk

/-- A request, raised by decode_request. -/
inductive Request where
  | Clone (id : String)
deriving DecidableEq

/-- A response generated by the server. -/
inductive Response where
  | Cloned (id : String) (new_session : String) (status : String)
deriving DecidableEq

/-- An error raised by the server when it could not handle a request
from a client. -/
inductive RequestError where
  | DError (e : DecErr)
  | UnexpectedObject
  | FailedToReadValue
  | Noop
  | UnknownOp
  | KeyNotFound (k : String)
deriving DecidableEq

/-- Result of a Rust computation that may also abort the process:
the third constructor records a panic and its message. -/
inductive PResult (α : Type) where
  | ok (a : α)
  | err (e : RequestError)
  | panicked (msg : String)
deriving DecidableEq

/-- Embedding of the loop body of decode_dict: walk the decoded
pairs in wire order, convert key and value with str::from_utf8
(whose failure is a panic via expect), reject non-byte-string
values, and insert into the map with overwrite. -/
def decodeDictAux : List (String × String) → List (List Nat × Bobject) →
    PResult (List (String × String))
  | acc, [] => .ok acc
  | acc, (k, v) :: rest =>
    match utf8Decode k with
    | none => .panicked ("Conversion to UTF8 failed")
    | some ks =>
      match v with
      | .bytes b =>
        match utf8Decode b with
        | none => .panicked ("Conversion to UTF8 failed")
        | some vs => decodeDictAux (assocInsert acc ks vs) rest
      | _ => .err .FailedToReadValue

/-- Embedding of decode_dict over an already parsed pair list. -/
def decodeDict (ps : List (List Nat × Bobject)) : PResult (List (String × String)) :=
  decodeDictAux [] ps

/-- The interpretation half of decode_request: dispatch on the op
field of the decoded dictionary. -/
def interpretDict (m : List (String × String)) : Except RequestError Request :=
  match assocGet m ("op") with
  | none => .error .Noop
  | some op =>
    if op = "clone" then
      match assocGet m ("id") with
      | some i => .ok (.Clone i)
      | none => .error (.KeyNotFound ("id"))
    else .error .UnknownOp

/-- Embedding of decode_request: read one object from the decoder
(unwrap of None panics on an empty buffer), require a dictionary,
decode its pairs, then interpret.  Trailing bytes are ignored, as
the source never reads a second object. -/
def decodeRequest (bs : List Nat) : PResult Request :=
  if bs.isEmpty then .panicked ("called Option::unwrap() on a None value")
  else
    match parse bs with
    | .error e => .err (.DError e)
    | .ok (.dict ps, _) =>
      match decodeDict ps with
      | .ok m =>
        match interpretDict m with
        | .ok r => .ok r
        | .error e => .err e
      | .err e => .err e
      | .panicked msg => .panicked msg
    | .ok (_, _) => .err .UnexpectedObject

/-- Embedding of Server::run_request: insert a fresh default Repl
under the requested id, mint a new session identifier, and answer
with the done status. -/
def runRequest (u : UuidDraws) (sessions : List (String × Repl)) :
    Request → List (String × Repl) × Except RequestError Response
  | .Clone id =>
    (assocInsert sessions id Repl.default,
      .ok (.Cloned id (randomUuid u) ("done")))

/-- Embedding of the ToBencode impl for Response: a dictionary with
the pairs id, new-session, status emitted in that order. -/
def encodeResponse : Response → List Nat
  | .Cloned id ns st =>
    [100] ++ encStr (strBytes ("id")) ++ encStr (strBytes id) ++
      encStr (strBytes ("new-session")) ++ encStr (strBytes ns) ++
      encStr (strBytes ("status")) ++ encStr (strBytes st) ++ [101]

/-- What one iteration of the Server::run loop does with the chunk
just read from the socket. -/
inductive StepOutcome where
  | closed
  | aborted (msg : String)
  | replied (out : List Nat)
deriving DecidableEq

/-- Embedding of the body of the Server::run loop: zero bytes end
the loop, a full 512-byte read panics, a decode failure panics via
expect, otherwise the request runs and the encoded response is
written back. -/
def loopStep (u : UuidDraws) (sessions : List (String × Repl))
    (chunk : List Nat) : StepOutcome × List (String × Repl) :=
  if chunk.length = 0 then (.closed, sessions)
  else if chunk.length = 512 then (.aborted ("Request was too big!"), sessions)
  else
    match decodeRequest chunk with
    | .panicked msg => (.aborted msg, sessions)
    | .err _ => (.aborted ("Request decoding failed"), sessions)
    | .ok req =>
      match runRequest u sessions req with
      | (sessions', .ok resp) => (.replied (encodeResponse resp), sessions')
      | (sessions', .error _) => (.aborted ("Request execution failed"), sessions')

/-! ## clojure.string/triml (src/clojure_string/triml.rs) -/

/-- Embedding of the TypeTag enum of src/type_tag.rs. -/
inductive TypeTag where
  | I32
  | F64
  | Boolean
  | Symbol
  | Keyword
  | IFn
  | Condition
  | PersistentList
  | PersistentVector
  | PersistentListMap
  | Macro
  | String
  | Integer
  | ISeq
  | Nil
deriving DecidableEq

/-- Embedding of the Display impl of TypeTag. -/
def typeTagToString : TypeTag → String
  | .I32 => "rust.std.i32"
  | .Boolean => "rust.std.bool"
  | .F64 => "rust.std.f64"
  | .Symbol => "clojure.lang.Symbol"
  | .Keyword => "clojure.lang.Keyword"
  | .IFn => "clojure.lang.Function"
  | .Condition => "clojure.lang.Condition"
  | .PersistentList => "clojure.lang.PersistentList"
  | .PersistentVector => "clojure.lang.PersistentVector"
  | .PersistentListMap => "clojure.lang.PersistentListMap"
  | .Macro => "clojure.lang.Macro"
  | .String => "rust.std.string.String"
  | .Integer => "clojure.lang.Integer"
  | .ISeq => "clojure.lang.ISeq"
  | .Nil => "clojure.lang.Nil"

/-- Modelled from the spec: the runtime value type of the host system
(crate::value::Value is not under src/; the spec treats it as an
opaque value type consumed by the string utilities).  Only the
variants needed to state the triml contract are carried; the string
variant is the one triml operates on, Condition is the error
carrier, and the remaining variants stand for every non-string
value. -/
inductive Value where
  | Nil
  | Boolean (b : Bool)
  | I32 (n : Int)
  | Str (s : String)
  | Keyword (s : String)
  | Condition (s : String)
deriving DecidableEq

/-- Modelled from the spec: crate::error_message (not under src/)
builds Condition error values; wrong_arg_count reports an arity
mismatch. -/
def wrong_arg_count (expected actual : Nat) : Value :=
  .Condition ("Wrong number of arguments given to function (Given: " ++
    toString actual ++ ", Expected: " ++ toString expected ++ ")")

/-- Modelled from the spec: crate::error_message (not under src/)
builds Condition error values; type_mismatch reports a value of the
wrong runtime type. -/
def type_mismatch (expected : TypeTag) (_actual : Value) : Value :=
  .Condition ("Type mismatch; Expected instance of " ++
    typeTagToString expected)

/-- The Unicode White_Space code points, the set recognised by the
Rust char::is_whitespace predicate that str::trim_start uses. -/
def rustIsWhitespace (c : Char) : Bool :=
  [0x09, 0x0A, 0x0B, 0x0C, 0x0D, 0x20, 0x85, 0xA0, 0x1680,
    0x2000, 0x2001, 0x2002, 0x2003, 0x2004, 0x2005, 0x2006, 0x2007,
    0x2008, 0x2009, 0x200A, 0x2028, 0x2029, 0x202F, 0x205F, 0x3000].contains c.toNat

/-- Embedding of str::trim_start: drop leading whitespace. -/
def trimStartStr (s : String) : String :=
  String.mk (s.data.dropWhile rustIsWhitespace)

/-- Embedding of TrimLFn::invoke: arity check, then trim a string
argument, or report a type mismatch.  The source checks the length
first and then unwraps element zero, which cannot fail; the pattern
match realises the same function. -/
def TrimLFn.invoke : List Value → Value
  | [Value.Str s] => Value.Str (trimStartStr s)
  | [v] => type_mismatch TypeTag.String v
  | args => wrong_arg_count 1 args.length


/-! ## Helper lemmas: association lists -/

theorem assocInsert_idem {α : Type} (m : List (String × α)) (k : String) (v : α) :
    assocInsert (assocInsert m k v) k v = assocInsert m k v := by
  induction m with
  | nil => simp [assocInsert]
  | cons hd tl ih =>
    obtain ⟨k', v'⟩ := hd
    by_cases h : k' = k
    · simp [assocInsert, h]
    · simp [assocInsert, h, ih]

theorem assocGet_insert_self {α : Type} (m : List (String × α)) (k : String) (v : α) :
    assocGet (assocInsert m k v) k = some v := by
  induction m with
  | nil => simp [assocInsert, assocGet]
  | cons hd tl ih =>
    obtain ⟨k', v'⟩ := hd
    by_cases h : k' = k
    · simp [assocInsert, assocGet, h]
    · simp [assocInsert, assocGet, h, ih]

theorem assocGet_insert_ne {α : Type} (m : List (String × α)) (k q : String) (v : α)
    (h : q ≠ k) : assocGet (assocInsert m k v) q = assocGet m q := by
  have hne : ¬k = q := fun hkq => h hkq.symm
  induction m with
  | nil => simp [assocInsert, assocGet, hne]
  | cons hd tl ih =>
    obtain ⟨k', v'⟩ := hd
    by_cases hk : k' = k
    · subst hk
      simp [assocInsert, assocGet, hne]
    · simp [assocInsert, assocGet, hk, ih]

/-! ## Helper lemmas: decimal digits -/

theorem decDigitsGo_eq_digits (fuel : Nat) :
    ∀ n, n ≤ fuel → decDigitsGo fuel n = Nat.digits 10 n := by
  induction fuel with
  | zero =>
    intro n hn
    interval_cases n
    simp [decDigitsGo]
  | succ f ih =>
    intro n hn
    by_cases h0 : n = 0
    · simp [decDigitsGo, h0]
    · have hdiv : n / 10 ≤ f := by
        have : n / 10 < n := Nat.div_lt_self (Nat.pos_of_ne_zero h0) (by omega)
        omega
      rw [decDigitsGo, if_neg h0, ih _ hdiv,
        Nat.digits_def' (by omega : 1 < 10) (Nat.pos_of_ne_zero h0)]

theorem decDigits_eq_digits (n : Nat) : decDigits n = Nat.digits 10 n :=
  decDigitsGo_eq_digits n n (le_refl n)

theorem natToDecimal_ne_nil (n : Nat) : natToDecimal n ≠ [] := by
  by_cases h0 : n = 0
  · simp [natToDecimal, h0]
  · simp only [natToDecimal, if_neg h0, ne_eq, List.map_eq_nil_iff,
      List.reverse_eq_nil_iff, decDigits_eq_digits]
    exact Nat.digits_ne_nil_iff_ne_zero.mpr h0

theorem natToDecimal_mem_digit (n : Nat) :
    ∀ c ∈ natToDecimal n, 48 ≤ c ∧ c ≤ 57 := by
  intro c hc
  by_cases h0 : n = 0
  · simp [natToDecimal, h0] at hc
    omega
  · simp only [natToDecimal, if_neg h0, List.mem_map, List.mem_reverse,
      decDigits_eq_digits] at hc
    obtain ⟨d, hd, rfl⟩ := hc
    have := Nat.digits_lt_base (by omega : 1 < 10) hd
    omega

/-- Accumulating most-significant-first over the reversed digit list
recovers the positional value. -/
theorem foldl_reverse_ofDigits (l : List Nat) (acc : Nat) :
    List.foldl (fun a d => a * 10 + d) acc l.reverse =
      acc * 10 ^ l.length + Nat.ofDigits 10 l := by
  induction l generalizing acc with
  | nil => simp [Nat.ofDigits_nil]
  | cons d t ih =>
    simp only [List.reverse_cons, List.foldl_append, List.foldl_cons,
      List.foldl_nil, ih, Nat.ofDigits_cons, List.length_cons]
    ring

theorem foldl_natToDecimal (n : Nat) :
    List.foldl (fun a c => a * 10 + (c - 48)) 0 (natToDecimal n) = n := by
  by_cases h0 : n = 0
  · simp [natToDecimal, h0]
  · rw [natToDecimal, if_neg h0, List.foldl_map]
    have hstep :
        (fun (a : Nat) (d : Nat) => a * 10 + (d + 48 - 48)) =
          fun (a : Nat) (d : Nat) => a * 10 + d := by
      funext a d
      omega
    rw [hstep, foldl_reverse_ofDigits, decDigits_eq_digits]
    simp [Nat.ofDigits_digits]

/-! ## Helper lemmas: the bencode parser inverts the encoder -/

theorem parseDecimal_digits (ds : List Nat) (r : List Nat) (acc : Nat)
    (h : ∀ c ∈ ds, 48 ≤ c ∧ c ≤ 57) :
    parseDecimal (ds ++ 58 :: r) acc =
      (List.foldl (fun a c => a * 10 + (c - 48)) acc ds, 58 :: r) := by
  induction ds generalizing acc with
  | nil => simp [parseDecimal]
  | cons c t ih =>
    have hc : 48 ≤ c ∧ c ≤ 57 := h c (by simp)
    simp only [List.cons_append, parseDecimal, if_pos hc, List.foldl_cons]
    exact ih _ (fun x hx => h x (by simp [hx]))

theorem parseBytesToken_enc (bs r : List Nat) :
    parseBytesToken (encStr bs ++ r) = .ok (bs, r) := by
  obtain ⟨c, t, hct⟩ : ∃ c t, natToDecimal bs.length = c :: t := by
    cases h : natToDecimal bs.length with
    | nil => exact absurd h (natToDecimal_ne_nil _)
    | cons c t => exact ⟨c, t, rfl⟩
  have hdig := natToDecimal_mem_digit bs.length
  have hc : 48 ≤ c ∧ c ≤ 57 := hdig c (by rw [hct]; simp)
  have henc : encStr bs ++ r = c :: (t ++ 58 :: (bs ++ r)) := by
    simp [encStr, hct]
  rw [henc]
  simp only [parseBytesToken, if_pos hc]
  rw [← henc]
  have hdec : encStr bs ++ r = natToDecimal bs.length ++ 58 :: (bs ++ r) := by
    simp [encStr]
  rw [hdec, parseDecimal_digits _ _ _ hdig, foldl_natToDecimal]
  have hle : bs.length ≤ (bs ++ r).length := by
    simp [List.length_append]
  simp only [if_pos hle, List.take_left, List.drop_left]

theorem parseObjF_enc_bytes (f : Nat) (bs r : List Nat) :
    parseObjF (f + 1) (encStr bs ++ r) = .ok (.bytes bs, r) := by
  obtain ⟨c, t, hct⟩ : ∃ c t, natToDecimal bs.length = c :: t := by
    cases h : natToDecimal bs.length with
    | nil => exact absurd h (natToDecimal_ne_nil _)
    | cons c t => exact ⟨c, t, rfl⟩
  have hc : 48 ≤ c ∧ c ≤ 57 := natToDecimal_mem_digit bs.length c (by rw [hct]; simp)
  have henc : encStr bs ++ r = c :: (t ++ 58 :: (bs ++ r)) := by
    simp [encStr, hct]
  rw [henc]
  simp only [parseObjF]
  rw [if_neg (by omega : ¬c = 105), if_neg (by omega : ¬c = 108),
    if_neg (by omega : ¬c = 100), if_pos hc, ← henc, parseBytesToken_enc]

theorem parseDictF_enc (ps : List (List Nat × List Nat)) :
    ∀ (f : Nat) (r : List Nat), ps.length < f →
      parseDictF f (encPairs ps ++ 101 :: r) = .ok (pairsToDict ps, r) := by
  induction ps with
  | nil =>
    intro f r hf
    obtain ⟨g, rfl⟩ : ∃ g, f = g + 1 := ⟨f - 1, by omega⟩
    simp [encPairs, pairsToDict, parseDictF]
  | cons p t ih =>
    intro f r hf
    obtain ⟨k, v⟩ := p
    obtain ⟨g, rfl⟩ : ∃ g, f = g + 1 := ⟨f - 1, by omega⟩
    have hg : t.length < g := by
      simp only [List.length_cons] at hf
      omega
    obtain ⟨g', rfl⟩ : ∃ g', g = g' + 1 := ⟨g - 1, by omega⟩
    obtain ⟨c, tt, hct⟩ : ∃ c tt, natToDecimal k.length = c :: tt := by
      cases h : natToDecimal k.length with
      | nil => exact absurd h (natToDecimal_ne_nil _)
      | cons c tt => exact ⟨c, tt, rfl⟩
    have hc : 48 ≤ c ∧ c ≤ 57 :=
      natToDecimal_mem_digit k.length c (by rw [hct]; simp)
    have hint : encPairs ((k, v) :: t) ++ 101 :: r =
        encStr k ++ (encStr v ++ (encPairs t ++ 101 :: r)) := by
      simp [encPairs]
    have hcons : encStr k ++ (encStr v ++ (encPairs t ++ 101 :: r)) =
        c :: (tt ++ 58 :: (k ++ (encStr v ++ (encPairs t ++ 101 :: r)))) := by
      simp [encStr, hct]
    rw [hint, hcons]
    simp only [parseDictF]
    rw [if_neg (by omega : ¬c = 101), ← hcons, parseBytesToken_enc]
    dsimp only
    rw [parseObjF_enc_bytes]
    dsimp only
    rw [ih _ _ hg]
    simp [pairsToDict]

/-- Every encoded Cloned response parses back, with nothing left
over, to the dictionary whose pairs are id, new-session, status in
exactly that order, all values byte strings. -/
theorem parse_encodeResponse (id ns st : String) :
    parse (encodeResponse (.Cloned id ns st)) =
      .ok (.dict [(strBytes ("id"), .bytes (strBytes id)),
        (strBytes ("new-session"), .bytes (strBytes ns)),
        (strBytes ("status"), .bytes (strBytes st))], []) := by
  have henc : encodeResponse (.Cloned id ns st) =
      100 :: (encPairs [(strBytes ("id"), strBytes id),
        (strBytes ("new-session"), strBytes ns),
        (strBytes ("status"), strBytes st)] ++ 101 :: ([] : List Nat)) := by
    simp [encodeResponse, encPairs]
  have hlen : 3 < (encPairs [(strBytes ("id"), strBytes id),
      (strBytes ("new-session"), strBytes ns),
      (strBytes ("status"), strBytes st)] ++ 101 :: ([] : List Nat)).length + 1 := by
    have h1 : 0 < (natToDecimal (strBytes ("id")).length).length :=
      List.length_pos.mpr (natToDecimal_ne_nil _)
    have h2 : 0 < (natToDecimal (strBytes ("new-session")).length).length :=
      List.length_pos.mpr (natToDecimal_ne_nil _)
    simp only [encPairs, encStr, List.length_append, List.length_cons]
    omega
  rw [parse, henc]
  simp only [List.length_cons, parseObjF]
  rw [if_neg (by omega : ¬(100 : Nat) = 105), if_neg (by omega : ¬(100 : Nat) = 108)]
  simp only [if_true]
  rw [parseDictF_enc _ _ _ hlen]
  simp [pairsToDict]

/-- Re-serializing the decoded form of a Cloned response gives back
the exact bytes the encoder produced. -/
theorem serialize_decoded_response (id ns st : String) :
    serializeBObj (.dict [(strBytes ("id"), .bytes (strBytes id)),
        (strBytes ("new-session"), .bytes (strBytes ns)),
        (strBytes ("status"), .bytes (strBytes st))]) =
      encodeResponse (.Cloned id ns st) := by
  simp [serializeBObj, serializeBPairs, encodeResponse]

/-! ## Helper lemmas: decode_dict and trim_start -/

/-- When every key and every byte-string value of the pair list is
valid UTF-8 and some value is not a byte string, decode_dict stops
with the typed error, whatever the accumulator. -/
theorem decodeDictAux_nonString (ps : List (List Nat × Bobject))
    (hutf : ∀ k v, (k, v) ∈ ps →
      (utf8Decode k).isSome ∧ ∀ b, v = .bytes b → (utf8Decode b).isSome)
    (hbad : ∃ p, p ∈ ps ∧ p.2.isBytes = false) :
    ∀ acc, decodeDictAux acc ps = .err .FailedToReadValue := by
  induction ps with
  | nil => simp at hbad
  | cons p t ih =>
    intro acc
    obtain ⟨k, v⟩ := p
    have hk : (utf8Decode k).isSome := (hutf k v (by simp)).1
    obtain ⟨ks, hks⟩ := Option.isSome_iff_exists.mp hk
    cases v with
    | bytes b =>
      have hv : (utf8Decode b).isSome :=
        (hutf k (.bytes b) (by simp)).2 b rfl
      obtain ⟨vs, hvs⟩ := Option.isSome_iff_exists.mp hv
      simp only [decodeDictAux, hks, hvs]
      apply ih
      · intro k' v' hm
        exact hutf k' v' (by simp [hm])
      · obtain ⟨q, hq, hqb⟩ := hbad
        rcases List.mem_cons.mp hq with hq1 | hq2
        · rw [hq1] at hqb
          simp [Bobject.isBytes] at hqb
        · exact ⟨q, hq2, hqb⟩
    | int n => simp [decodeDictAux, hks]
    | list xs => simp [decodeDictAux, hks]
    | dict qs => simp [decodeDictAux, hks]

/-- The first element surviving dropWhile does not satisfy the
predicate. -/
theorem head_dropWhile_false {α : Type} (p : α → Bool) :
    ∀ (l : List α) (c : α), (l.dropWhile p).head? = some c → p c = false := by
  intro l
  induction l with
  | nil => intro c hc; simp [List.dropWhile] at hc
  | cons a t ih =>
    intro c hc
    by_cases hp : p a
    · rw [List.dropWhile_cons_of_pos hp] at hc
      exact ih c hc
    · rw [List.dropWhile_cons_of_neg hp] at hc
      simp only [List.head?_cons, Option.some.injEq] at hc
      rw [← hc]
      exact Bool.of_not_eq_true hp

/-! ## The claims -/

/-- C1: the specification requires every outcome of the random
source to give a 36-character string matching the version-4
grammar.  The all-zero outcome is within the range of every
gen_range call, yet random_uuid renders it as the 12-character
string 0-0-4000-8-0: the groups carry no zero padding and the
variant nibble is added, not shifted into place. -/
theorem c1_random_uuid_not_v4 :
    uuidDrawsZero.inRange ∧
    randomUuid uuidDrawsZero = "0-0-4000-8-0" ∧
    (randomUuid uuidDrawsZero).length = 12 :=
  ⟨by unfold UuidDraws.inRange; decide, by decide, by decide⟩

/-- C2 counterexample: after dispatching Clone("abc") under the
all-zero draws, the generated identifier 0-0-4000-8-0 is returned in
the response but is not a key of the registry. -/
theorem c2_counterexample :
    (runRequest uuidDrawsZero [] (.Clone ("abc"))).2 =
      .ok (.Cloned ("abc") ("0-0-4000-8-0") ("done")) ∧
    assocGet (runRequest uuidDrawsZero [] (.Clone ("abc"))).1 ("0-0-4000-8-0") =
      none :=
  ⟨rfl, rfl⟩

/-- C2 (amended): dispatching Clone(X) registers X itself, and no
other key changes; in particular the freshly generated identifier Y
is a key afterwards only if it equals X or was already present. -/
theorem c2_amended (u : UuidDraws) (s : List (String × Repl)) (x : String) :
    assocGet (runRequest u s (.Clone x)).1 x = some Repl.default ∧
    ∀ k, k ≠ x → assocGet (runRequest u s (.Clone x)).1 k = assocGet s k := by
  constructor
  · exact assocGet_insert_self s x Repl.default
  · intro k hk
    exact assocGet_insert_ne s x k Repl.default hk

/-- C2 witness: the amended statement applied at a concrete state. -/
theorem c2_amended_witness :
    assocGet (runRequest uuidDrawsZero [] (.Clone ("abc"))).1 ("abc") =
      some Repl.default ∧
    assocGet (runRequest uuidDrawsZero [] (.Clone ("abc"))).1 ("0-0-4000-8-0") =
      none := by
  refine ⟨(c2_amended uuidDrawsZero [] ("abc")).1, ?_⟩
  have h := (c2_amended uuidDrawsZero [] ("abc")).2 ("0-0-4000-8-0") (by decide)
  rw [h]
  rfl

/-- C3 counterexample: the input d2:op4:evale makes the connection
loop abort the process via expect (panic), rather than answer with
a typed rejection and keep the connection open. -/
theorem c3_counterexample :
    loopStep uuidDrawsZero [] (strBytes ("d2:op4:evale")) =
      (.aborted ("Request decoding failed"), []) := rfl

/-- C3 (amended): the decoder does produce the typed UnknownOp error
for d2:op4:evale, but the connection loop turns every decode or
interpretation failure into a process abort, and a full 512-byte
read is likewise fatal. -/
theorem c3_amended :
    decodeRequest (strBytes ("d2:op4:evale")) = .err .UnknownOp ∧
    (∀ u s chunk, chunk.length = 512 →
      loopStep u s chunk = (.aborted ("Request was too big!"), s)) ∧
    (∀ u s chunk e, chunk.length ≠ 0 → chunk.length ≠ 512 →
      decodeRequest chunk = .err e →
      loopStep u s chunk = (.aborted ("Request decoding failed"), s)) := by
  refine ⟨rfl, ?_, ?_⟩
  · intro u s chunk h
    simp [loopStep, h]
  · intro u s chunk e h0 h512 hdec
    simp [loopStep, h0, h512, hdec]

/-- C3 witness: the amended statement applied to the concrete
unknown-op request and to a concrete full buffer. -/
theorem c3_amended_witness :
    loopStep uuidDrawsZero [] (strBytes ("d2:op4:evale")) =
      (.aborted ("Request decoding failed"), ([] : List (String × Repl))) ∧
    loopStep uuidDrawsZero [] (List.replicate 512 0) =
      (.aborted ("Request was too big!"), ([] : List (String × Repl))) := by
  constructor
  · exact c3_amended.2.2 uuidDrawsZero [] _ .UnknownOp (by decide) (by decide)
      c3_amended.1
  · exact c3_amended.2.1 uuidDrawsZero [] _ (List.length_replicate 512 0)

/-- C4: Clone(id) performs an unconditional upsert of a fresh
default evaluator under id, and cloning the same id twice leaves
the registry exactly as cloning it once does. -/
theorem c4_clone_upsert (u1 u2 : UuidDraws) (s : List (String × Repl)) (id : String) :
    (runRequest u1 s (.Clone id)).1 = assocInsert s id Repl.default ∧
    (runRequest u2 (runRequest u1 s (.Clone id)).1 (.Clone id)).1 =
      (runRequest u1 s (.Clone id)).1 := by
  refine ⟨rfl, ?_⟩
  show assocInsert (assocInsert s id Repl.default) id Repl.default =
    assocInsert s id Repl.default
  exact assocInsert_idem s id Repl.default

/-- C5: request interpretation over a decoded dictionary: a missing
op is Noop, op clone without id is KeyNotFound, op clone with id is
the Clone request, any other op is UnknownOp, and the outcome
depends only on the op and id fields. -/
theorem c5_interpret (m m' : List (String × String)) :
    (assocGet m ("op") = none → interpretDict m = .error .Noop) ∧
    (assocGet m ("op") = some ("clone") → assocGet m ("id") = none →
      interpretDict m = .error (.KeyNotFound ("id"))) ∧
    (∀ i, assocGet m ("op") = some ("clone") → assocGet m ("id") = some i →
      interpretDict m = .ok (.Clone i)) ∧
    (∀ op, assocGet m ("op") = some op → op ≠ "clone" →
      interpretDict m = .error .UnknownOp) ∧
    (assocGet m ("op") = assocGet m' ("op") →
      assocGet m ("id") = assocGet m' ("id") →
      interpretDict m = interpretDict m') := by
  refine ⟨?_, ?_, ?_, ?_, ?_⟩
  · intro h
    simp [interpretDict, h]
  · intro h1 h2
    simp [interpretDict, h1, h2]
  · intro i h1 h2
    simp [interpretDict, h1, h2]
  · intro op h1 h2
    simp [interpretDict, h1, h2]
  · intro h1 h2
    simp only [interpretDict, h1, h2]

/-- C5 witness: the interpretation contract applied at concrete
dictionaries, extraneous fields included. -/
theorem c5_interpret_witness :
    interpretDict [("op", "clone"), ("id", "abc"), ("junk", "zzz")] =
      .ok (.Clone ("abc")) ∧
    interpretDict [] = .error .Noop ∧
    interpretDict [("op", "eval")] = .error .UnknownOp ∧
    interpretDict [("op", "clone")] = .error (.KeyNotFound ("id")) ∧
    interpretDict [("op", "clone"), ("id", "abc"), ("junk", "zzz")] =
      interpretDict [("id", "abc"), ("op", "clone")] := by
  refine ⟨?_, ?_, ?_, ?_, ?_⟩
  · exact (c5_interpret [("op", "clone"), ("id", "abc"), ("junk", "zzz")] []).2.2.1
      ("abc") rfl rfl
  · exact (c5_interpret [] []).1 rfl
  · exact (c5_interpret [("op", "eval")] []).2.2.2.1 ("eval") rfl (by decide)
  · exact (c5_interpret [("op", "clone")] []).2.1 rfl rfl
  · exact (c5_interpret [("op", "clone"), ("id", "abc"), ("junk", "zzz")]
      [("id", "abc"), ("op", "clone")]).2.2.2.2 rfl rfl

/-- C6 counterexample: the buffer d1:(0xFF)i1ee decodes to a
dictionary that contains a value which is not a byte string, yet
decode_dict panics on the non-UTF-8 key instead of returning the
typed FailedToReadValue error. -/
theorem c6_counterexample :
    decodeRequest [100, 49, 58, 255, 105, 49, 101, 101] =
      .panicked ("Conversion to UTF8 failed") := rfl

/-- C6 (amended): a non-dictionary top-level value always yields the
typed UnexpectedObject error, and a dictionary containing a
non-byte-string value yields the typed FailedToReadValue error
provided its keys and byte-string values are valid UTF-8; a
non-UTF-8 key or value reached first panics instead. -/
theorem c6_amended :
    (∀ bs obj rest, parse bs = .ok (obj, rest) → obj.isDict = false →
      decodeRequest bs = .err .UnexpectedObject) ∧
    (∀ bs ps rest, parse bs = .ok (.dict ps, rest) →
      (∀ k v, (k, v) ∈ ps →
        (utf8Decode k).isSome ∧ ∀ b, v = .bytes b → (utf8Decode b).isSome) →
      (∃ p, p ∈ ps ∧ p.2.isBytes = false) →
      decodeRequest bs = .err .FailedToReadValue) := by
  constructor
  · intro bs obj rest hp hd
    have hne : bs.isEmpty = false := by
      cases bs with
      | nil =>
        rw [parse] at hp
        simp [parseObjF] at hp
      | cons a t => rfl
    cases obj with
    | dict ps => simp [Bobject.isDict] at hd
    | int n => simp [decodeRequest, hne, hp]
    | bytes b => simp [decodeRequest, hne, hp]
    | list xs => simp [decodeRequest, hne, hp]
  · intro bs ps rest hp hutf hbad
    have hne : bs.isEmpty = false := by
      cases bs with
      | nil =>
        rw [parse] at hp
        simp [parseObjF] at hp
      | cons a t => rfl
    simp only [decodeRequest, hne, Bool.false_eq_true, if_false, hp]
    rw [decodeDict, decodeDictAux_nonString ps hutf hbad []]

/-- C6 witness: the amended statement applied to a concrete integer
buffer and to a concrete dictionary with an integer value. -/
theorem c6_amended_witness :
    decodeRequest [105, 51, 101] = .err .UnexpectedObject ∧
    decodeRequest [100, 49, 58, 97, 105, 49, 101, 101] =
      .err .FailedToReadValue := by
  constructor
  · exact c6_amended.1 [105, 51, 101] (.int 3) [] rfl rfl
  · refine c6_amended.2 [100, 49, 58, 97, 105, 49, 101, 101]
      [([97], .int 1)] [] rfl ?_ ?_
    · intro k v hm
      simp only [List.mem_singleton, Prod.mk.injEq] at hm
      obtain ⟨rfl, rfl⟩ := hm
      refine ⟨by decide, ?_⟩
      intro b hb
      simp at hb
    · exact ⟨([97], .int 1), by simp, rfl⟩

/-- C7: encoding a Cloned response yields a bencode dictionary whose
pairs are, in exact order, id, new-session and status, each value a
byte string; witnessed by parsing the emitted bytes back. -/
theorem c7_encode_order (id ns st : String) :
    parse (encodeResponse (.Cloned id ns st)) =
      .ok (.dict [(strBytes ("id"), .bytes (strBytes id)),
        (strBytes ("new-session"), .bytes (strBytes ns)),
        (strBytes ("status"), .bytes (strBytes st))], []) :=
  parse_encodeResponse id ns st

/-- C8: the wire codec round-trips every constructed Cloned
response: decoding the encoded bytes consumes them entirely and
re-encoding the decoded value reproduces the same byte sequence. -/
theorem c8_roundtrip (id ns st : String) :
    ∃ obj, parse (encodeResponse (.Cloned id ns st)) = .ok (obj, []) ∧
      serializeBObj obj = encodeResponse (.Cloned id ns st) :=
  ⟨_, parse_encodeResponse id ns st, serialize_decoded_response id ns st⟩

/-- C9: dispatch is infallible over the current request model: every
request produces an ok response, never the error branch. -/
theorem c9_dispatch_total (u : UuidDraws) (s : List (String × Repl)) (r : Request) :
    ∃ resp, (runRequest u s r).2 = .ok resp := by
  cases r with
  | Clone id => exact ⟨_, rfl⟩

/-- C10: TrimLFn::invoke is total: a non-singleton argument vector
gives the arity error value, a string argument gives back the string
with exactly its leading whitespace prefix removed, and any other
single value gives the type-mismatch error value. -/
theorem c10_triml (args : List Value) :
    (args.length ≠ 1 → TrimLFn.invoke args = wrong_arg_count 1 args.length) ∧
    (∀ s, args = [Value.Str s] →
      TrimLFn.invoke args = Value.Str (trimStartStr s) ∧
      ∃ w, s.data = w ++ (trimStartStr s).data ∧
        (∀ c ∈ w, rustIsWhitespace c = true) ∧
        (∀ c, (trimStartStr s).data.head? = some c → rustIsWhitespace c = false)) ∧
    (∀ v, args = [v] → (∀ s, v ≠ Value.Str s) →
      TrimLFn.invoke args = type_mismatch TypeTag.String v) := by
  refine ⟨?_, ?_, ?_⟩
  · intro h
    match args with
    | [] => rfl
    | [v] => simp at h
    | a :: b :: t => cases a <;> rfl
  · intro s hargs
    subst hargs
    refine ⟨rfl, s.data.takeWhile rustIsWhitespace, ?_, ?_, ?_⟩
    · rw [trimStartStr]
      exact (List.takeWhile_append_dropWhile rustIsWhitespace s.data).symm
    · intro c hc
      exact List.mem_takeWhile_imp hc
    · intro c hc
      exact head_dropWhile_false rustIsWhitespace s.data c hc
  · intro v hargs hv
    subst hargs
    cases v with
    | Str s => exact absurd rfl (hv s)
    | Nil => rfl
    | Boolean b => rfl
    | I32 n => rfl
    | Keyword s => rfl
    | Condition s => rfl

/-- C10 witness: the invoke contract applied at a concrete string
argument (the unit test of the source), at an empty argument vector
and at a non-string argument. -/
theorem c10_triml_witness :
    TrimLFn.invoke [Value.Str (" \r \t  hello   \n")] =
      Value.Str ("hello   \n") ∧
    TrimLFn.invoke [] = wrong_arg_count 1 0 ∧
    TrimLFn.invoke [Value.Nil] = type_mismatch TypeTag.String Value.Nil := by
  refine ⟨?_, ?_, ?_⟩
  · have h := ((c10_triml [Value.Str (" \r \t  hello   \n")]).2.1 _ rfl).1
    rw [h]
    rfl
  · exact (c10_triml []).1 (by decide)
  · exact (c10_triml [Value.Nil]).2.2 Value.Nil rfl (fun s h => Value.noConfusion h)
